import Mathlib

/-!
Verification of the personal-finance analytics toolkit (services, reports and
views layers) against its natural-language specification.

The embedding models monetary values as exact rationals, Python round
(banker's rounding at ties) as pyround, the Python float remainder operator
as pymod, and datetime.strptime with the ISO format as a strict char-level
parser.  Transactions are fixed-shape records mirroring the dictionary keys
used by the source (date, amount, cashback, category, description).
-/

/-- Python round to the nearest integer with ties going to the even integer,
as applied by the source to displayed amounts. -/
def pyround (q : ℚ) : ℤ :=
  if q - ⌊q⌋ < 1/2 then ⌊q⌋
  else if 1/2 < q - ⌊q⌋ then ⌊q⌋ + 1
  else if 2 ∣ ⌊q⌋ then ⌊q⌋ else ⌊q⌋ + 1

/-- Python round to two decimal places, as applied to the final savings sum
and to the card totals. -/
def pyround2 (q : ℚ) : ℚ := (pyround (q * 100) : ℚ) / 100

/-- Python remainder: a - b * floor (a / b), the semantics of the percent
operator on a float and a positive int. -/
def pymod (a b : ℚ) : ℚ := a - b * (⌊a / b⌋ : ℚ)

/-- Day count from the civil epoch 1970-01-01 (Howard Hinnant algorithm),
used to order dates and compute weekdays exactly as pandas does. -/
def daysFromCivil (y m d : ℤ) : ℤ :=
  let y2 := if m ≤ 2 then y - 1 else y
  let era := (if 0 ≤ y2 then y2 else y2 - 399) / 400
  let yoe := y2 - era * 400
  let mp := (m + 9) % 12
  let doy := (153 * mp + 2) / 5 + d - 1
  let doe := yoe * 365 + yoe / 4 - yoe / 100 + doy
  era * 146097 + doe - 719468

/-- Calendar date with explicit fields, the model of a parsed pandas
Timestamp (time of day is irrelevant to every claim). -/
structure Date where
  year : ℤ
  month : ℤ
  day : ℤ
deriving DecidableEq, Repr

/-- Linear day number of a date, used for all date comparisons. -/
def Date.num (d : Date) : ℤ := daysFromCivil d.year d.month d.day

/-- Weekday index with Monday = 0 through Sunday = 6, the convention of
pandas Series.dt.dayofweek. -/
def Date.dow (d : Date) : ℤ := (d.num + 3) % 7

/-- Length of a month in the proleptic Gregorian calendar, used by the
strict date parser to validate the day field. -/
def daysInMonth (y m : ℕ) : ℕ :=
  if m = 2 then (if y % 4 = 0 ∧ (y % 100 ≠ 0 ∨ y % 400 = 0) then 29 else 28)
  else if m = 4 ∨ m = 6 ∨ m = 9 ∨ m = 11 then 30
  else 31

/-- Split of a character list on the dash character, the model of the Python
str.split call on a single-character separator (empty segments kept). -/
def splitDash : List Char → List (List Char)
  | [] => [[]]
  | c :: cs =>
    let r := splitDash cs
    if c = '-' then [] :: r
    else
      match r with
      | [] => [[c]]
      | g :: gs => (c :: g) :: gs

/-- Value of a list of decimal digit characters, most significant first. -/
def digitsToNat (l : List Char) : ℕ :=
  l.foldl (fun acc c => 10 * acc + (c.toNat - 48)) 0

/-- Test that every character of the list is a decimal digit. -/
def allDigits (l : List Char) : Bool := l.all Char.isDigit

/-- Python int() applied to one split component: a non-empty run of digits
parses to its value, anything else raises (here: none). -/
def pyIntParse (l : List Char) : Option ℕ :=
  if l ≠ [] ∧ allDigits l then some (digitsToNat l) else none

/-- Strict parser for datetime.strptime with format %Y-%m-%d: exactly three
dash-separated all-digit fields (year up to 4 digits, month and day up to 2),
with the month in 1..12 and the day valid for that month; any other string,
including day-first forms and strings carrying a time of day, fails. -/
def parseDateISO (s : String) : Option (ℕ × ℕ × ℕ) :=
  match splitDash s.data with
  | [ys, ms, ds] =>
    if 1 ≤ ys.length ∧ ys.length ≤ 4 ∧ allDigits ys
        ∧ 1 ≤ ms.length ∧ ms.length ≤ 2 ∧ allDigits ms
        ∧ 1 ≤ ds.length ∧ ds.length ≤ 2 ∧ allDigits ds then
      let y := digitsToNat ys
      let m := digitsToNat ms
      let d := digitsToNat ds
      if 1 ≤ m ∧ m ≤ 12 ∧ 1 ≤ d ∧ d ≤ daysInMonth y m then some (y, m, d) else none
    else none
  | _ => none

/-- Transaction record of the services layer, mirroring the dictionary keys
the source reads: date string, operation amount, cashback, category and
description. -/
structure Txn where
  date : String
  amount : ℚ
  cashback : ℚ
  category : String
  description : String
deriving DecidableEq, Repr

/-- Year clamp shared by profitable_cashback_categories and investment_bank:
a year outside 2018..2021 is replaced by 2021 (with a logged warning). -/
def clampYear (y : ℕ) : ℕ := if 2018 ≤ y ∧ y ≤ 2021 then y else 2021

/-- Saving from rounding one amount up to the next multiple of the limit:
the complement of the remainder when the remainder is positive, else 0. -/
def roundupSaving (limit amount : ℚ) : ℚ :=
  if 0 < pymod amount limit then limit - pymod amount limit else 0

/-- Accumulation loop of investment_bank: a transaction contributes its
round-up saving when its date parses strictly as ISO and lands in the given
year and month and its amount is positive; every other transaction
contributes nothing (unparsable dates are skipped with a warning). -/
def savingsSum (year month : ℕ) (limit : ℚ) : List Txn → ℚ
  | [] => 0
  | t :: ts =>
    (match parseDateISO t.date with
     | some (y, m, _) =>
       if y = year ∧ m = month ∧ 0 < t.amount then roundupSaving limit t.amount else 0
     | none => 0) + savingsSum year month limit ts

/-- Embedding of services.investment_bank: the month string is split on the
dash and both parts parsed as ints, the year is clamped to 2018..2021, the
month number must lie in 1..12 and the limit must be positive (else a
ValueError propagates as an error), and the result is the accumulated
savings rounded to two decimals. -/
def investment_bank (month : String) (transactions : List Txn) (rounding_limit : ℤ) :
    Except String ℚ :=
  match (splitDash month.data).map pyIntParse with
  | [some year, some month_num] =>
    if 1 ≤ month_num ∧ month_num ≤ 12 then
      if 0 < rounding_limit then
        Except.ok (pyround2 (savingsSum (clampYear year) month_num (rounding_limit : ℚ) transactions))
      else Except.error "Invalid month format: Rounding limit must be positive"
    else Except.error "Invalid month format: month number must be 1..12"
  | _ => Except.error "Invalid month format"

/-- Predicate written from the claim text for C1: the transaction date
parses strictly as ISO and falls in the stated year and month. -/
def txnInMonth (year month : ℕ) (t : Txn) : Bool :=
  match parseDateISO t.date with
  | some (y, m, _) => y == year && m == month
  | none => false

/-- Sum written from the claim text for C1: over transactions of the stated
month with positive amount, the round-up saving of each. -/
def specSavings (year month : ℕ) (limit : ℚ) (txns : List Txn) : ℚ :=
  ((txns.filter (fun t => txnInMonth year month t && decide (0 < t.amount))).map
    (fun t => roundupSaving limit t.amount)).sum

/-- Association-list update modelling a Python dict: the first entry with the
given key has the value added to it, otherwise a new entry is appended. -/
def addToGroup (acc : List (String × ℚ)) (c : String) (v : ℚ) : List (String × ℚ) :=
  match acc with
  | [] => [(c, v)]
  | (c2, v2) :: rest => if c2 = c then (c2, v2 + v) :: rest else (c2, v2) :: addToGroup rest c v

/-- Lookup in an association list, the model of dict.get. -/
def lookupA (l : List (String × ℚ)) (c : String) : Option ℚ :=
  match l with
  | [] => none
  | (c2, v2) :: rest => if c2 = c then some v2 else lookupA rest c

/-- Accumulation loop of profitable_cashback_categories: a transaction adds
its cashback under its category when its date parses strictly as ISO, lands
in the given year and month, and the cashback is positive. -/
def cashbackFold (year month : ℕ) : List Txn → List (String × ℚ) → List (String × ℚ)
  | [], acc => acc
  | t :: ts, acc =>
    cashbackFold year month ts
      (match parseDateISO t.date with
       | some (y, m, _) =>
         if y = year ∧ m = month ∧ 0 < t.cashback then addToGroup acc t.category t.cashback
         else acc
       | none => acc)

/-- Year clamp of profitable_cashback_categories on its integer argument:
a year outside 2018..2021 becomes 2021 (with a logged warning). -/
def clampYearZ (y : ℤ) : ℕ := if 2018 ≤ y ∧ y ≤ 2021 then y.toNat else 2021

/-- Month clamp of profitable_cashback_categories: a month outside 1..12
becomes 12, silently. -/
def clampMonthZ (m : ℤ) : ℕ := if 1 ≤ m ∧ m ≤ 12 then m.toNat else 12

/-- Embedding of services.profitable_cashback_categories: the year is
clamped to 2021 outside 2018..2021 (with a warning), the month is clamped to
12 outside 1..12 (silently), then cashback is accumulated per category. -/
def profitable_cashback_categories (transactions : List Txn) (year month : ℤ) :
    List (String × ℚ) :=
  cashbackFold (clampYearZ year) (clampMonthZ month) transactions []

/-- List of qualifying transactions written from the claim text for C5:
dated in the stated year and month with strictly positive cashback and the
stated category. -/
def specCashbackTxns (year month : ℕ) (c : String) (txns : List Txn) : List Txn :=
  txns.filter (fun t => txnInMonth year month t && decide (0 < t.cashback) && t.category == c)

/-- Summed cashback written from the claim text for C5, over the qualifying
transactions of one category. -/
def specCashbackSum (year month : ℕ) (c : String) (txns : List Txn) : ℚ :=
  ((specCashbackTxns year month c txns).map Txn.cashback).sum

/-- Lowercasing of one character, the model of str.lower over the alphabets
the repository data uses: ASCII Latin letters and Russian Cyrillic letters
(the letter Ё included) map to their lowercase forms, every other character
is unchanged. -/
def pyLowerChar (c : Char) : Char :=
  if 'A' ≤ c ∧ c ≤ 'Z' then Char.ofNat (c.toNat + 32)
  else if 'А' ≤ c ∧ c ≤ 'Я' then Char.ofNat (c.toNat + 32)
  else if c = 'Ё' then 'ё'
  else c

/-- Lowercasing of a string character by character, the model of str.lower
as the case fold of simple_search. -/
def lowerS (s : String) : String := String.mk (s.data.map pyLowerChar)

/-- Contiguous-substring test on character lists, the semantics of the
Python in operator on strings. -/
def substrB (needle : List Char) : List Char → Bool
  | [] => needle.isEmpty
  | c :: cs => needle.isPrefixOf (c :: cs) || substrB needle cs

/-- Match test of simple_search for one transaction: the query occurs in the
description or in the category, both case-folded unless case_sensitive. -/
def searchHit (query : String) (case_sensitive : Bool) (t : Txn) : Bool :=
  let q := if case_sensitive then query else lowerS query
  let d := if case_sensitive then t.description else lowerS t.description
  let c := if case_sensitive then t.category else lowerS t.category
  substrB q.data d.data || substrB q.data c.data

/-- Embedding of services.simple_search: the empty query short-circuits to
the empty list, otherwise transactions are filtered on the match test. -/
def simple_search (query : String) (transactions : List Txn) (case_sensitive : Bool) :
    List Txn :=
  if query = "" then [] else transactions.filter (searchHit query case_sensitive)

/-- Embedding of services.person_transfers_search with the compiled name
regex abstracted as a predicate on the description (the claim quantifies
over every pattern, default or caller-supplied): a transaction is kept when
its category is exactly the transfers label and its description matches. -/
def person_transfers_search (matchName : String → Bool) (transactions : List Txn) :
    List Txn :=
  transactions.filter (fun t => t.category == "Переводы" && matchName t.description)

/-- Transaction row of the reports and views layers: a DataFrame row whose
date column has already been parsed to a Timestamp (as the tests supply). -/
structure Row where
  date : Date
  category : String
  amount : ℚ
deriving DecidableEq, Repr

/-- Fixed historical window 2018-01-01..2021-12-31 of the report functions,
inclusive on both ends. -/
def inReportWindow (t : Row) : Bool :=
  decide (daysFromCivil 2018 1 1 ≤ t.date.num) && decide (t.date.num ≤ daysFromCivil 2021 12 31)

/-- Weekend test of spending_by_workday: pandas dayofweek at least 5. -/
def isWeekend (t : Row) : Bool := decide (5 ≤ t.date.dow)

/-- Arithmetic mean of a list of rationals (only applied to non-empty
groups, exactly as pandas mean over a non-empty groupby bucket). -/
def mean (l : List ℚ) : ℚ := l.sum / (l.length : ℚ)

/-- Weekend bucket of spending_by_workday: in-window rows whose weekday
index is 5 or 6. -/
def weekendRows (transactions : List Row) : List Row :=
  (transactions.filter inReportWindow).filter isWeekend

/-- Workday bucket of spending_by_workday: in-window rows whose weekday
index is 0 through 4. -/
def workdayRows (transactions : List Row) : List Row :=
  (transactions.filter inReportWindow).filter (fun t => !(isWeekend t))

/-- Embedding of reports.spending_by_workday: the pandas groupby over the
day-type label yields one mean row per label present in the filtered data,
keys in ascending label order (the weekend label sorts first); a label with
no rows yields no group. -/
def spending_by_workday (transactions : List Row) : List (String × ℚ) :=
  (if (weekendRows transactions).isEmpty then []
   else [("Выходной", mean ((weekendRows transactions).map Row.amount))]) ++
  (if (workdayRows transactions).isEmpty then []
   else [("Рабочий", mean ((workdayRows transactions).map Row.amount))])

/-- Embedding of the reports.report_to_file decorator: the wrapped operation
runs first; then the reports directory is created, a step that sits outside
the try block in the source, so its failure (modelled as the mkdir outcome)
propagates to the caller; then the serialization and file write are
attempted inside the try block, and both the success and the failure of
that save action fall through to returning the original result, the
failure after only a log entry. -/
def report_to_file {α β : Type} (func : α → β) (mkdir : Except String Unit)
    (save : β → Except String Unit) (x : α) : Except String β :=
  let result := func x
  match mkdir with
  | Except.error e => Except.error e
  | Except.ok _ =>
    match save result with
    | Except.ok _ => Except.ok result
    | Except.error _ => Except.ok result

/-- Window start used by views.events_page: a fixed day per range label
(ALL from 2018-01-01, Y from 2021-01-01, M from 2021-12-01, anything else,
the week label included, from 2021-12-25). -/
def eventsWindowStart (date_range : String) : ℤ :=
  if date_range = "ALL" then daysFromCivil 2018 1 1
  else if date_range = "Y" then daysFromCivil 2021 1 1
  else if date_range = "M" then daysFromCivil 2021 12 1
  else daysFromCivil 2021 12 25

/-- Transaction filter applied by views.events_page: the date string
argument is received as in the source but plays no part in the window, and
only the lower bound is applied (the upper bound computed earlier in the
source is discarded when the filtered frame is recomputed). -/
def eventsFiltered (transactions : List Row) (date_str date_range : String) : List Row :=
  let _ := date_str
  transactions.filter (fun t => decide (eventsWindowStart date_range ≤ t.date.num))

/-- Grouping loop: per-category sums accumulated over the rows in order,
modelling the pandas groupby sum (bucket order is irrelevant to every
property stated below). -/
def groupSumAux : List Row → List (String × ℚ) → List (String × ℚ)
  | [], acc => acc
  | r :: rs, acc => groupSumAux rs (addToGroup acc r.category r.amount)

/-- Per-category sums of a list of rows. -/
def groupSum (rows : List Row) : List (String × ℚ) := groupSumAux rows []

/-- Sum of the values of an association list of per-category sums. -/
def sumVals (l : List (String × ℚ)) : ℚ := (l.map Prod.snd).sum

/-- Insertion into a value-descending list, keeping it value-descending. -/
def insertDesc (p : String × ℚ) : List (String × ℚ) → List (String × ℚ)
  | [] => [p]
  | q :: qs => if q.2 ≤ p.2 then p :: q :: qs else q :: insertDesc p qs

/-- Value-descending sort of the per-category sums, modelling the pandas
nlargest selection (ties may order differently; no stated property depends
on tie order). -/
def sortDesc : List (String × ℚ) → List (String × ℚ)
  | [] => []
  | p :: ps => insertDesc p (sortDesc ps)

/-- Displayed bucket of the events payload: category label and an amount
already rounded to the nearest integer. -/
structure Bucket where
  category : String
  amount : ℤ
deriving DecidableEq, Repr

/-- Expenses block of the events payload. -/
structure ExpensesData where
  total_amount : ℤ
  main : List Bucket
  transfers_and_cash : List Bucket
deriving DecidableEq, Repr

/-- Income block of the events payload. -/
structure IncomeData where
  total_amount : ℤ
  main : List Bucket
deriving DecidableEq, Repr

/-- Events payload assembled by views.events_page (the currency and stock
quote lists come from external collaborators and are out of scope). -/
structure EventsData where
  expenses : ExpensesData
  income : IncomeData
deriving DecidableEq, Repr

/-- Positive-amount rows of the events window (expenses by the sign
convention of the source). -/
def eventsExpRows (transactions : List Row) (date_str date_range : String) : List Row :=
  (eventsFiltered transactions date_str date_range).filter (fun t => decide ((0:ℚ) < t.amount))

/-- Negative-amount rows of the events window (income by the sign
convention of the source). -/
def eventsIncRows (transactions : List Row) (date_str date_range : String) : List Row :=
  (eventsFiltered transactions date_str date_range).filter (fun t => decide (t.amount < (0:ℚ)))

/-- The seven largest per-category expense sums, modelling nlargest(7). -/
def eventsMainSeven (transactions : List Row) (date_str date_range : String) :
    List (String × ℚ) :=
  (sortDesc (groupSum (eventsExpRows transactions date_str date_range))).take 7

/-- Remainder left outside the seven largest expense categories. -/
def eventsOther (transactions : List Row) (date_str date_range : String) : ℚ :=
  sumVals (groupSum (eventsExpRows transactions date_str date_range)) -
    sumVals (eventsMainSeven transactions date_str date_range)

/-- Embedding of the data assembly of views.events_page: expenses grouped by
category and summed, reduced to the seven largest plus a synthetic bucket
holding the remainder when it is positive; income grouped by category,
summed and displayed as absolute values; every displayed amount rounded to
the nearest integer; the transfers block a fixed zero-valued stub.  An empty
filtered frame short-circuits in the source to the same zero totals and
empty lists this computation produces. -/
def eventsData (transactions : List Row) (date_str date_range : String) : EventsData :=
  let byCat := groupSum (eventsExpRows transactions date_str date_range)
  let main7 := eventsMainSeven transactions date_str date_range
  let other := eventsOther transactions date_str date_range
  let byCatI := groupSum (eventsIncRows transactions date_str date_range)
  { expenses :=
    { total_amount := pyround (sumVals byCat)
      main := main7.map (fun p => Bucket.mk p.1 (pyround p.2)) ++
        (if 0 < other then [Bucket.mk "Остальное" (pyround other)] else [])
      transfers_and_cash := [Bucket.mk "Наличные" 0, Bucket.mk "Переводы" 0] }
    income :=
    { total_amount := pyround ((byCatI.map (fun p => |p.2|)).sum)
      main := byCatI.map (fun p => Bucket.mk p.1 (pyround |p.2|)) } }

/-- Error taxonomy named by the specification for caller-parameter
failures of the view layer. -/
inductive ViewError where
  | invalidArgument : String → ViewError
deriving DecidableEq, Repr

/-- Embedding of views.events_page: the source wraps the assembly in a
try block that only re-raises failures of external collaborators (settings
file, market data); the embedded pure fragment has no failing branch, and in
particular no branch inspects the range label to raise. -/
def events_page (transactions : List Row) (date_str date_range : String) :
    Except ViewError EventsData :=
  Except.ok (eventsData transactions date_str date_range)

/-- Success test on the events result: true exactly when the call produced
a payload rather than failing. -/
def exceptIsOk : Except ViewError EventsData → Bool
  | Except.ok _ => true
  | Except.error _ => false

/-- Window start written from the claim text for C3: the start is computed
relative to the as-of date (start of its week with Monday first, first day
of its month, first day of its year), and the whole-history range has no
lower bound. -/
def specWindowStart (as_of : Date) (range_spec : String) : Option ℤ :=
  if range_spec = "W" then some (as_of.num - as_of.dow)
  else if range_spec = "M" then some (daysFromCivil as_of.year as_of.month 1)
  else if range_spec = "Y" then some (daysFromCivil as_of.year 1 1)
  else none

/-- Filter written from the claim text for C3 over the recognized ranges:
transactions from the spec window start on (no bound for the whole-history
range). -/
def specFiltered (transactions : List Row) (as_of : Date) (range_spec : String) : List Row :=
  match specWindowStart as_of range_spec with
  | some s => transactions.filter (fun t => decide (s ≤ t.date.num))
  | none => transactions

-- sanity checks of the calendar model against known weekdays
example : daysFromCivil 1970 1 1 = 0 := by decide
example : (⟨2021, 12, 27⟩ : Date).dow = 0 := by decide
example : (⟨2021, 5, 30⟩ : Date).dow = 6 := by decide
example : parseDateISO "2021-12-31" = some (2021, 12, 31) := by decide
example : parseDateISO "31.12.2021" = none := by decide
example : parseDateISO "2021-12-31 10:00:00" = none := by decide
example : parseDateISO "2021-02-30" = none := by decide

/-- Updating one key adds its value to the total of the association list. -/
theorem sumVals_addToGroup (acc : List (String × ℚ)) (c : String) (v : ℚ) :
    sumVals (addToGroup acc c v) = sumVals acc + v := by
  induction acc with
  | nil => simp [addToGroup, sumVals]
  | cons p rest ih =>
    obtain ⟨c2, v2⟩ := p
    by_cases h : c2 = c
    · simp [addToGroup, h, sumVals]; ring
    · simp only [addToGroup, if_neg h, sumVals, List.map_cons, List.sum_cons] at ih ⊢
      rw [ih]; ring

/-- Every value of the updated association list satisfies a predicate that
holds on the old values and the added value and is closed under addition. -/
theorem mem_addToGroup_pred (P : ℚ → Prop) (hP : ∀ a b, P a → P b → P (a + b))
    (acc : List (String × ℚ)) (c : String) (v : ℚ)
    (hacc : ∀ p ∈ acc, P p.2) (hv : P v) :
    ∀ p ∈ addToGroup acc c v, P p.2 := by
  induction acc with
  | nil =>
    intro p hp
    simp [addToGroup] at hp
    rw [hp]
    exact hv
  | cons q rest ih =>
    obtain ⟨c2, v2⟩ := q
    have hhead : P v2 := hacc (c2, v2) (List.mem_cons_self _ _)
    have hrest : ∀ p ∈ rest, P p.2 := fun p hp => hacc p (List.mem_cons_of_mem _ hp)
    by_cases h : c2 = c
    · intro p hp
      simp only [addToGroup, if_pos h] at hp
      rcases List.mem_cons.mp hp with h1 | h1
      · rw [h1]; exact hP _ _ hhead hv
      · exact hrest p h1
    · intro p hp
      simp only [addToGroup, if_neg h] at hp
      rcases List.mem_cons.mp hp with h1 | h1
      · rw [h1]; exact hhead
      · exact ih hrest p h1

/-- Looking up the updated key yields the old value (or 0) plus the added
value. -/
theorem lookupA_addToGroup_self (acc : List (String × ℚ)) (c : String) (v : ℚ) :
    lookupA (addToGroup acc c v) c = some ((lookupA acc c).getD 0 + v) := by
  induction acc with
  | nil => simp [addToGroup, lookupA]
  | cons q rest ih =>
    obtain ⟨c2, v2⟩ := q
    by_cases h : c2 = c
    · simp [addToGroup, h, lookupA]
    · simp [addToGroup, h, lookupA, ih]

/-- Looking up a different key is unchanged by the update. -/
theorem lookupA_addToGroup_ne (acc : List (String × ℚ)) (c c0 : String) (v : ℚ)
    (h : c ≠ c0) :
    lookupA (addToGroup acc c v) c0 = lookupA acc c0 := by
  induction acc with
  | nil => simp [addToGroup, lookupA, h]
  | cons q rest ih =>
    obtain ⟨c2, v2⟩ := q
    by_cases h2 : c2 = c
    · simp only [addToGroup, if_pos h2, lookupA]
      rw [h2, if_neg h, if_neg h]
    · simp only [addToGroup, if_neg h2, lookupA, ih]

/-- Total of the grouping loop: the accumulator total plus all amounts. -/
theorem sumVals_groupSumAux (rows : List Row) :
    ∀ acc, sumVals (groupSumAux rows acc) = sumVals acc + (rows.map Row.amount).sum := by
  induction rows with
  | nil => intro acc; simp [groupSumAux]
  | cons r rs ih =>
    intro acc
    simp only [groupSumAux, List.map_cons, List.sum_cons]
    rw [ih, sumVals_addToGroup]
    ring

/-- Per-category sums of a row list add up to the sum of all amounts. -/
theorem sumVals_groupSum (rows : List Row) :
    sumVals (groupSum rows) = (rows.map Row.amount).sum := by
  rw [groupSum, sumVals_groupSumAux]
  simp [sumVals]

/-- Every per-category sum satisfies a predicate holding on all amounts and
closed under addition. -/
theorem mem_groupSumAux_pred (P : ℚ → Prop) (hP : ∀ a b, P a → P b → P (a + b))
    (rows : List Row) :
    ∀ acc, (∀ p ∈ acc, P p.2) → (∀ r ∈ rows, P r.amount) →
      ∀ p ∈ groupSumAux rows acc, P p.2 := by
  induction rows with
  | nil => intro acc hacc _ p hp; exact hacc p hp
  | cons r rs ih =>
    intro acc hacc hrows p hp
    simp only [groupSumAux] at hp
    exact ih (addToGroup acc r.category r.amount)
      (mem_addToGroup_pred P hP acc r.category r.amount hacc
        (hrows r (List.mem_cons_self _ _)))
      (fun q hq => hrows q (List.mem_cons_of_mem _ hq)) p hp

/-- Sum of a list of nonpositive rationals is nonpositive. -/
theorem sum_nonpos_of_all (l : List ℚ) (h : ∀ x ∈ l, x ≤ 0) : l.sum ≤ 0 := by
  induction l with
  | nil => simp
  | cons x rest ih =>
    simp only [List.sum_cons]
    exact add_nonpos (h x (List.mem_cons_self _ _))
      (ih (fun y hy => h y (List.mem_cons_of_mem _ hy)))

/-- Sums of a list of nonpositive values: the total of the absolute values
is the absolute value of the total. -/
theorem sum_abs_of_nonpos (l : List (String × ℚ)) (h : ∀ p ∈ l, p.2 ≤ 0) :
    (l.map (fun p => |p.2|)).sum = |sumVals l| := by
  induction l with
  | nil => simp [sumVals]
  | cons p rest ih =>
    have hp : p.2 ≤ 0 := h p (List.mem_cons_self _ _)
    have hrest : ∀ q ∈ rest, q.2 ≤ 0 := fun q hq => h q (List.mem_cons_of_mem _ hq)
    have hsum : (rest.map Prod.snd).sum ≤ 0 := by
      refine sum_nonpos_of_all _ ?_
      intro x hx
      obtain ⟨q, hq, hxq⟩ := List.mem_map.mp hx
      rw [← hxq]; exact hrest q hq
    simp only [List.map_cons, List.sum_cons, sumVals] at ih ⊢
    rw [ih hrest, abs_of_nonpos hp, abs_of_nonpos hsum, abs_of_nonpos (add_nonpos hp hsum)]
    ring

/-- Value-descending insertion preserves the total. -/
theorem sumVals_insertDesc (p : String × ℚ) (l : List (String × ℚ)) :
    sumVals (insertDesc p l) = p.2 + sumVals l := by
  induction l with
  | nil => simp [insertDesc, sumVals]
  | cons q rest ih =>
    by_cases h : q.2 ≤ p.2
    · simp [insertDesc, h, sumVals]
    · simp only [insertDesc, if_neg h, sumVals, List.map_cons, List.sum_cons] at ih ⊢
      rw [ih]; ring

/-- Value-descending insertion adds one element. -/
theorem length_insertDesc (p : String × ℚ) (l : List (String × ℚ)) :
    (insertDesc p l).length = l.length + 1 := by
  induction l with
  | nil => simp [insertDesc]
  | cons q rest ih =>
    by_cases h : q.2 ≤ p.2
    · simp [insertDesc, h]
    · simp [insertDesc, h, ih]

/-- Membership in a value-descending insertion. -/
theorem mem_insertDesc (p q : String × ℚ) (l : List (String × ℚ)) :
    q ∈ insertDesc p l ↔ q = p ∨ q ∈ l := by
  induction l with
  | nil => simp [insertDesc]
  | cons r rest ih =>
    by_cases h : r.2 ≤ p.2
    · simp [insertDesc, h]
    · simp only [insertDesc, if_neg h, List.mem_cons, ih]
      tauto

/-- The value-descending sort preserves the total. -/
theorem sumVals_sortDesc (l : List (String × ℚ)) :
    sumVals (sortDesc l) = sumVals l := by
  induction l with
  | nil => rfl
  | cons p rest ih =>
    simp only [sortDesc]
    rw [sumVals_insertDesc, ih]
    simp [sumVals]

/-- The value-descending sort preserves the length. -/
theorem length_sortDesc (l : List (String × ℚ)) :
    (sortDesc l).length = l.length := by
  induction l with
  | nil => rfl
  | cons p rest ih => simp [sortDesc, length_insertDesc, ih]

/-- The value-descending sort preserves membership. -/
theorem mem_sortDesc (q : String × ℚ) (l : List (String × ℚ)) :
    q ∈ sortDesc l ↔ q ∈ l := by
  induction l with
  | nil => simp [sortDesc]
  | cons p rest ih =>
    simp only [sortDesc, mem_insertDesc, List.mem_cons, ih]

/-- The dash split never returns an empty list of groups. -/
theorem splitDash_ne_nil (l : List Char) : splitDash l ≠ [] := by
  cases l with
  | nil => simp [splitDash]
  | cons c cs =>
    simp only [splitDash]
    by_cases h : c = '-'
    · simp [h]
    · simp only [if_neg h]
      cases hr : splitDash cs <;> simp

/-- Every non-dash character of the input lands inside one of the groups of
the dash split. -/
theorem mem_splitDash_of_mem (l : List Char) (c : Char) (hne : c ≠ '-') :
    c ∈ l → ∃ g ∈ splitDash l, c ∈ g := by
  induction l with
  | nil => intro hc; simp at hc
  | cons c0 cs ih =>
    intro hc
    by_cases h0 : c0 = '-'
    · have hcs : c ∈ cs := by
        rcases List.mem_cons.mp hc with h | h
        · exact absurd (h.trans h0) hne
        · exact h
      obtain ⟨g, hg, hcg⟩ := ih hcs
      refine ⟨g, ?_, hcg⟩
      simp only [splitDash, if_pos h0]
      exact List.mem_cons_of_mem _ hg
    · have hnn := splitDash_ne_nil cs
      cases hr : splitDash cs with
      | nil => exact absurd hr hnn
      | cons g0 gs =>
        have hres : splitDash (c0 :: cs) = (c0 :: g0) :: gs := by
          simp only [splitDash, if_neg h0, hr]
        rcases List.mem_cons.mp hc with h | h
        · exact ⟨c0 :: g0, by rw [hres]; exact List.mem_cons_self _ _, by
            rw [h]; exact List.mem_cons_self _ _⟩
        · obtain ⟨g, hg, hcg⟩ := ih h
          rw [hr] at hg
          rcases List.mem_cons.mp hg with h2 | h2
          · exact ⟨c0 :: g0, by rw [hres]; exact List.mem_cons_self _ _, by
              rw [h2] at hcg; exact List.mem_cons_of_mem _ hcg⟩
          · exact ⟨g, by rw [hres]; exact List.mem_cons_of_mem _ h2, hcg⟩

/-- A group containing a non-digit character fails the all-digits test. -/
theorem allDigits_eq_false_of_mem (g : List Char) (c : Char) (hc : c ∈ g)
    (hd : c.isDigit = false) : allDigits g = false := by
  rw [allDigits, List.all_eq_false]
  exact ⟨c, hc, by simp [hd]⟩

/-- Any date string containing a non-digit, non-dash character (a dot of a
day-first date, a space before a time of day) fails the strict ISO parse. -/
theorem parseDateISO_none_of_bad_char (s : String) (c : Char) (hc : c ∈ s.data)
    (hne : c ≠ '-') (hd : c.isDigit = false) : parseDateISO s = none := by
  obtain ⟨g, hg, hcg⟩ := mem_splitDash_of_mem s.data c hne hc
  have had := allDigits_eq_false_of_mem g c hcg hd
  rw [parseDateISO.eq_def]
  split
  · rename_i ys ms ds heq
    rw [heq] at hg
    rw [if_neg]
    intro hcond
    rcases List.mem_cons.mp hg with rfl | hg2
    · rw [hcond.2.2.1] at had; simp at had
    · rcases List.mem_cons.mp hg2 with rfl | hg3
      · rw [hcond.2.2.2.2.2.1] at had; simp at had
      · rcases List.mem_cons.mp hg3 with rfl | hg4
        · rw [hcond.2.2.2.2.2.2.2.2] at had; simp at had
        · simp at hg4
  · rfl

/-- The accumulation loop of investment_bank computes the sum the claim
describes: over the transactions of the stated month with positive amount,
the round-up saving of each. -/
theorem savingsSum_eq_spec (y m : ℕ) (L : ℚ) (ts : List Txn) :
    savingsSum y m L ts = specSavings y m L ts := by
  induction ts with
  | nil => simp [savingsSum, specSavings]
  | cons t ts ih =>
    rw [savingsSum, ih]
    simp only [specSavings, List.filter_cons]
    cases h : parseDateISO t.date with
    | none => simp [txnInMonth, h]
    | some p =>
      obtain ⟨py, pm, pd⟩ := p
      by_cases h1 : py = y
      · by_cases h2 : pm = m
        · by_cases h3 : 0 < t.amount
          · simp [txnInMonth, h, h1, h2, h3, specSavings]
          · simp [txnInMonth, h, h1, h2, h3, specSavings]
        · simp [txnInMonth, h, h1, h2, specSavings]
      · simp [txnInMonth, h, h1, specSavings]

/-- A transaction whose date does not parse contributes nothing to the
savings loop. -/
theorem savingsSum_cons_skip (y m : ℕ) (L : ℚ) (t : Txn) (ts : List Txn)
    (h : parseDateISO t.date = none) :
    savingsSum y m L (t :: ts) = savingsSum y m L ts := by
  rw [savingsSum, h]
  simp

/-- A transaction whose date does not parse leaves the cashback loop
accumulator untouched. -/
theorem cashbackFold_cons_skip (y m : ℕ) (t : Txn) (ts : List Txn)
    (acc : List (String × ℚ)) (h : parseDateISO t.date = none) :
    cashbackFold y m (t :: ts) acc = cashbackFold y m ts acc := by
  rw [cashbackFold, h]

/-- Every value accumulated by the cashback loop from positive starting
values is positive. -/
theorem cashbackFold_pos (y m : ℕ) (ts : List Txn) :
    ∀ acc, (∀ p ∈ acc, 0 < p.2) → ∀ p ∈ cashbackFold y m ts acc, 0 < p.2 := by
  induction ts with
  | nil => intro acc hacc p hp; exact hacc p hp
  | cons t ts ih =>
    intro acc hacc p hp
    rw [cashbackFold] at hp
    cases h : parseDateISO t.date with
    | none =>
      rw [h] at hp
      exact ih acc hacc p hp
    | some q =>
      obtain ⟨py, pm, pd⟩ := q
      rw [h] at hp
      dsimp only at hp
      by_cases hc : py = y ∧ pm = m ∧ 0 < t.cashback
      · rw [if_pos hc] at hp
        exact ih _ (mem_addToGroup_pred _ (fun a b => add_pos) acc _ _ hacc hc.2.2) p hp
      · rw [if_neg hc] at hp
        exact ih acc hacc p hp

/-- Lookup after the cashback loop: the accumulated value under a category
is the starting value (or nothing) plus the summed cashback of the
qualifying transactions of that category, present exactly when either was
present. -/
theorem lookupA_cashbackFold (y m : ℕ) (c : String) (ts : List Txn) :
    ∀ acc, lookupA (cashbackFold y m ts acc) c =
      (if lookupA acc c = none ∧ specCashbackTxns y m c ts = [] then none
       else some ((lookupA acc c).getD 0 + specCashbackSum y m c ts)) := by
  induction ts with
  | nil =>
    intro acc
    cases hl : lookupA acc c with
    | none => simp [cashbackFold, specCashbackTxns, specCashbackSum, hl]
    | some v => simp [cashbackFold, specCashbackTxns, specCashbackSum, hl]
  | cons t ts ih =>
    intro acc
    rw [cashbackFold]
    cases h : parseDateISO t.date with
    | none =>
      dsimp only
      rw [ih acc]
      have hq : txnInMonth y m t = false := by simp [txnInMonth, h]
      simp [specCashbackTxns, specCashbackSum, List.filter_cons, hq]
    | some q =>
      obtain ⟨py, pm, pd⟩ := q
      dsimp only
      by_cases hc : py = y ∧ pm = m ∧ 0 < t.cashback
      · rw [if_pos hc]
        by_cases hcat : t.category = c
        · rw [hcat, ih (addToGroup acc c t.cashback)]
          have hq : (txnInMonth y m t && decide (0 < t.cashback) && t.category == c) = true := by
            simp [txnInMonth, h, hc.1, hc.2.1, hc.2.2, hcat]
          simp only [specCashbackTxns, specCashbackSum, List.filter_cons, hq, if_pos]
          rw [lookupA_addToGroup_self]
          cases hl : lookupA acc c with
          | none =>
            simp [specCashbackTxns, List.map_cons, List.sum_cons, add_assoc]
          | some v =>
            simp [specCashbackTxns, List.map_cons, List.sum_cons, add_assoc]
        · rw [ih (addToGroup acc t.category t.cashback)]
          have hq : (txnInMonth y m t && decide (0 < t.cashback) && t.category == c) = false := by
            simp [hcat]
          rw [lookupA_addToGroup_ne acc t.category c t.cashback hcat]
          simp [specCashbackTxns, specCashbackSum, List.filter_cons, hq]
      · rw [if_neg hc]
        rw [ih acc]
        have hq : (txnInMonth y m t && decide (0 < t.cashback) && t.category == c) = false := by
          simp only [txnInMonth, h]
          by_cases h1 : py = y
          · by_cases h2 : pm = m
            · have h3 : ¬ 0 < t.cashback := fun h3 => hc ⟨h1, h2, h3⟩
              simp [h1, h2, h3]
            · simp [h2]
          · simp [h1]
        simp [specCashbackTxns, specCashbackSum, List.filter_cons, hq]

/-- Counterexample to C8 as stated: the directory-creation step of the
decorator runs outside the try block, so its failure propagates to the
caller and the wrapped operation result is not returned. -/
theorem C8_report_sink_counterexample :
    report_to_file (fun n : ℕ => n + 1) (Except.error "No such file or directory")
      (fun _ => Except.ok ()) 0 = Except.error "No such file or directory" ∧
    report_to_file (fun n : ℕ => n + 1) (Except.error "No such file or directory")
      (fun _ => Except.ok ()) 0 ≠ Except.ok ((fun n : ℕ => n + 1) 0) := by
  refine ⟨rfl, ?_⟩
  intro h
  exact Except.noConfusion h

/-- C8 amended: when the reports directory is created successfully, the
decorator returns exactly the wrapped operation result unchanged and a
failure while serializing or writing the report file is swallowed after
logging, never raised and never altering the result; but the
directory-creation step runs outside the try block, so its failure
propagates to the caller. -/
theorem C8_report_sink_behavior {α β : Type} (func : α → β)
    (save : β → Except String Unit) (x : α) (e : String) :
    report_to_file func (Except.ok ()) save x = Except.ok (func x) ∧
    report_to_file func (Except.error e) save x = Except.error e := by
  refine ⟨?_, rfl⟩
  simp only [report_to_file]
  cases save (func x) <;> rfl

/-- C9: every transaction returned by person_transfers_search has category
exactly the transfers label, for every name pattern, default or
caller-supplied, even when the description matches it. -/
theorem C9_person_transfers_category (matchName : String → Bool)
    (transactions : List Txn) (t : Txn)
    (h : t ∈ person_transfers_search matchName transactions) :
    t.category = "Переводы" := by
  rw [person_transfers_search] at h
  have h2 := (List.mem_filter.mp h).2
  simp only [Bool.and_eq_true, beq_iff_eq] at h2
  exact h2.1

/-- Witness for C9 at a concrete list holding one transfer and one
non-transfer transaction whose description also matches. -/
theorem C9_person_transfers_category_witness :
    (⟨"2021-01-01", -100, 0, "Переводы", "Иванов И."⟩ : Txn) ∈
      person_transfers_search (fun _ => true)
        [⟨"2021-01-01", 200, 0, "Супермаркеты", "Иванов И."⟩,
         ⟨"2021-01-01", -100, 0, "Переводы", "Иванов И."⟩] ∧
    (⟨"2021-01-01", -100, 0, "Переводы", "Иванов И."⟩ : Txn).category = "Переводы" := by
  refine ⟨by decide, ?_⟩
  exact C9_person_transfers_category (fun _ => true)
    [⟨"2021-01-01", 200, 0, "Супермаркеты", "Иванов И."⟩,
     ⟨"2021-01-01", -100, 0, "Переводы", "Иванов И."⟩] _ (by decide)

/-- C7: simple_search returns exactly the transactions whose description or
category contains the query as a substring, case-folded unless the flag is
set, and the empty query returns the empty list for every transaction list,
never matching everything. -/
theorem C7_simple_search_characterization (query : String) (transactions : List Txn)
    (case_sensitive : Bool) (t : Txn) :
    simple_search "" transactions case_sensitive = [] ∧
    (query ≠ "" →
      (t ∈ simple_search query transactions case_sensitive ↔
        t ∈ transactions ∧ searchHit query case_sensitive t = true)) := by
  constructor
  · rw [simple_search]
    simp
  · intro hq
    rw [simple_search, if_neg hq]
    exact List.mem_filter

/-- Witness for C7 on the repository test fixture: the lowercase Cyrillic
query hits the mixed-case description case-insensitively, misses it when
case_sensitive is set, and the empty query returns nothing on the same
non-empty list. -/
theorem C7_simple_search_witness :
    (⟨"2021-01-01", 100, 0, "Супермаркеты", "Покупка в Пятерочке"⟩ : Txn) ∈
      simple_search "пятерочке"
        [⟨"2021-01-01", 100, 0, "Супермаркеты", "Покупка в Пятерочке"⟩] false ∧
    ¬ ((⟨"2021-01-01", 100, 0, "Супермаркеты", "Покупка в Пятерочке"⟩ : Txn) ∈
      simple_search "пятерочке"
        [⟨"2021-01-01", 100, 0, "Супермаркеты", "Покупка в Пятерочке"⟩] true) ∧
    simple_search ""
      [⟨"2021-01-01", 100, 0, "Супермаркеты", "Покупка в Пятерочке"⟩] false = [] := by
  refine ⟨?_, ?_, ?_⟩
  · exact ((C7_simple_search_characterization "пятерочке"
      [⟨"2021-01-01", 100, 0, "Супермаркеты", "Покупка в Пятерочке"⟩] false
      ⟨"2021-01-01", 100, 0, "Супермаркеты", "Покупка в Пятерочке"⟩).2 (by decide)).mpr
      ⟨by decide, by decide⟩
  · intro hmem
    have h := ((C7_simple_search_characterization "пятерочке"
      [⟨"2021-01-01", 100, 0, "Супермаркеты", "Покупка в Пятерочке"⟩] true
      ⟨"2021-01-01", 100, 0, "Супермаркеты", "Покупка в Пятерочке"⟩).2 (by decide)).mp hmem
    exact absurd h.2 (by decide)
  · exact (C7_simple_search_characterization "пятерочке"
      [⟨"2021-01-01", 100, 0, "Супермаркеты", "Покупка в Пятерочке"⟩] false
      ⟨"2021-01-01", 100, 0, "Супермаркеты", "Покупка в Пятерочке"⟩).1

/-- C10: a transaction whose date string is day-first (it contains a dot) or
carries a time of day (it contains a space) fails the strict ISO parse, is
skipped with a warning, and contributes nothing to the cashback mapping or
to the savings total. -/
theorem C10_non_iso_dates_skipped (t : Txn) (ts : List Txn) (year month : ℤ)
    (monthStr : String) (limit : ℤ)
    (h : ('.' ∈ t.date.data) ∨ (' ' ∈ t.date.data)) :
    profitable_cashback_categories (t :: ts) year month =
      profitable_cashback_categories ts year month ∧
    investment_bank monthStr (t :: ts) limit = investment_bank monthStr ts limit := by
  have hnone : parseDateISO t.date = none := by
    rcases h with h | h
    · exact parseDateISO_none_of_bad_char t.date '.' h (by decide) (by decide)
    · exact parseDateISO_none_of_bad_char t.date ' ' h (by decide) (by decide)
  constructor
  · rw [profitable_cashback_categories, profitable_cashback_categories,
      cashbackFold_cons_skip _ _ _ _ _ hnone]
  · rw [investment_bank.eq_def, investment_bank.eq_def]
    cases hE : (splitDash monthStr.data).map pyIntParse with
    | nil => rfl
    | cons o rest =>
      cases o with
      | none => rfl
      | some y =>
        cases rest with
        | nil => rfl
        | cons o2 rest2 =>
          cases o2 with
          | none => rfl
          | some m =>
            cases rest2 with
            | cons o3 rest3 => rfl
            | nil =>
              dsimp only
              rw [savingsSum_cons_skip _ _ _ _ _ hnone]

/-- Witness for C10: a day-first date and a date with a time of day, each
skipped, leaving an empty mapping and a zero savings total. -/
theorem C10_non_iso_dates_skipped_witness :
    profitable_cashback_categories [⟨"31.12.2021", 100, 50, "Еда", "x"⟩] 2021 12 = [] ∧
    investment_bank "2021-12" [⟨"2021-12-31 10:00:00", 1030, 0, "Еда", "x"⟩] 50 =
      Except.ok 0 := by
  have h1 := (C10_non_iso_dates_skipped ⟨"31.12.2021", 100, 50, "Еда", "x"⟩ []
    2021 12 "2021-12" 50 (Or.inl (by decide))).1
  have h2 := (C10_non_iso_dates_skipped ⟨"2021-12-31 10:00:00", 1030, 0, "Еда", "x"⟩ []
    2021 12 "2021-12" 50 (Or.inr (by decide))).2
  constructor
  · rw [h1]; rfl
  · rw [h2]
    rw [investment_bank.eq_def]
    have hE : (splitDash ("2021-12").data).map pyIntParse = [some 2021, some 12] := by decide
    rw [hE]
    dsimp only
    rw [if_pos (by norm_num), if_pos (by norm_num)]
    rw [savingsSum]
    rw [pyround2, pyround]
    norm_num

/-- Counterexample to C2 as stated: a single in-window Monday transaction
produces one row, not two; the empty weekend bucket yields no row at all. -/
theorem C2_workday_counterexample :
    (spending_by_workday [⟨⟨2021, 12, 27⟩, "Еда", 100⟩]).length = 1 ∧
    ¬ ((spending_by_workday [⟨⟨2021, 12, 27⟩, "Еда", 100⟩]).length = 2) := by
  constructor <;> decide

/-- C2 amended: spending_by_workday returns one mean row per non-empty
bucket, keyed by the weekend and workday labels, so exactly two rows appear
precisely when both buckets hold at least one in-window transaction; an
empty bucket yields no row rather than a zero row. -/
theorem C2_workday_rows (transactions : List Row) :
    (spending_by_workday transactions).length =
      ((if (weekendRows transactions).isEmpty then 0 else 1) +
       (if (workdayRows transactions).isEmpty then 0 else 1)) ∧
    (∀ p ∈ spending_by_workday transactions,
      (p.1 = "Выходной" ∧ p.2 = mean ((weekendRows transactions).map Row.amount)) ∨
      (p.1 = "Рабочий" ∧ p.2 = mean ((workdayRows transactions).map Row.amount))) ∧
    ((spending_by_workday transactions).length = 2 ↔
      (weekendRows transactions).isEmpty = false ∧
        (workdayRows transactions).isEmpty = false) := by
  cases hwe : (weekendRows transactions).isEmpty <;>
    cases hwd : (workdayRows transactions).isEmpty
  · refine ⟨by simp [spending_by_workday, hwe, hwd], ?_, by simp [spending_by_workday, hwe, hwd]⟩
    intro p hp
    simp only [spending_by_workday, hwe, hwd] at hp
    simp at hp
    rcases hp with hp | hp <;> rw [hp] <;> simp
  · refine ⟨by simp [spending_by_workday, hwe, hwd], ?_, by simp [spending_by_workday, hwe, hwd]⟩
    intro p hp
    simp only [spending_by_workday, hwe, hwd] at hp
    simp at hp
    rw [hp]; simp
  · refine ⟨by simp [spending_by_workday, hwe, hwd], ?_, by simp [spending_by_workday, hwe, hwd]⟩
    intro p hp
    simp only [spending_by_workday, hwe, hwd] at hp
    simp at hp
    rw [hp]; simp
  · refine ⟨by simp [spending_by_workday, hwe, hwd], ?_, by simp [spending_by_workday, hwe, hwd]⟩
    intro p hp
    simp only [spending_by_workday, hwe, hwd] at hp
    simp at hp

/-- Counterexample to C3 as stated: with the as-of date 2020-06-15 and the
year range, the spec window starts at 2020-01-01 and keeps a transaction
dated 2020-06-20, but events_page filters from the fixed day 2021-01-01 and
drops it. -/
theorem C3_window_counterexample :
    specFiltered [⟨⟨2020, 6, 20⟩, "Еда", 100⟩] ⟨2020, 6, 15⟩ "Y" =
      [⟨⟨2020, 6, 20⟩, "Еда", 100⟩] ∧
    eventsFiltered [⟨⟨2020, 6, 20⟩, "Еда", 100⟩] "2020-06-15 12:00:00" "Y" = [] ∧
    eventsFiltered [⟨⟨2020, 6, 20⟩, "Еда", 100⟩] "2020-06-15 12:00:00" "Y" ≠
      specFiltered [⟨⟨2020, 6, 20⟩, "Еда", 100⟩] ⟨2020, 6, 15⟩ "Y" := by
  refine ⟨?_, ?_, ?_⟩ <;> decide

/-- C3 amended: events_page filters to the window of dates at or after a
start that is a fixed constant per range label and independent of the as-of
date: 2018-01-01 for the whole history, 2021-01-01 for the year range,
2021-12-01 for the month range, and 2021-12-25 for every other label, the
week label included. -/
theorem C3_window_fixed (transactions : List Row) (d d2 r : String) (t : Row) :
    (t ∈ eventsFiltered transactions d r ↔
      t ∈ transactions ∧ eventsWindowStart r ≤ t.date.num) ∧
    eventsFiltered transactions d r = eventsFiltered transactions d2 r ∧
    eventsWindowStart "ALL" = daysFromCivil 2018 1 1 ∧
    eventsWindowStart "Y" = daysFromCivil 2021 1 1 ∧
    eventsWindowStart "M" = daysFromCivil 2021 12 1 ∧
    (r ≠ "ALL" → r ≠ "Y" → r ≠ "M" → eventsWindowStart r = daysFromCivil 2021 12 25) := by
  refine ⟨?_, rfl, by decide, by decide, by decide, ?_⟩
  · simp [eventsFiltered, List.mem_filter]
  · intro h1 h2 h3
    simp [eventsWindowStart, h1, h2, h3]

/-- Witness for C3 amended at a concrete unrecognized label and a concrete
row just inside the fixed week window. -/
theorem C3_window_fixed_witness :
    eventsWindowStart "INVALID" = daysFromCivil 2021 12 25 ∧
    (⟨⟨2021, 12, 26⟩, "Еда", 100⟩ : Row) ∈
      eventsFiltered [⟨⟨2021, 12, 26⟩, "Еда", 100⟩] "2021-12-31 00:00:00" "INVALID" := by
  have h := C3_window_fixed [⟨⟨2021, 12, 26⟩, "Еда", 100⟩] "2021-12-31 00:00:00" "x"
    "INVALID" ⟨⟨2021, 12, 26⟩, "Еда", 100⟩
  exact ⟨h.2.2.2.2.2 (by decide) (by decide) (by decide),
    h.1.mpr ⟨by decide, by decide⟩⟩

/-- Counterexample to C4 as stated: a call with an unrecognized range label
succeeds and produces a payload instead of failing with an invalid-argument
error. -/
theorem C4_invalid_range_counterexample :
    exceptIsOk (events_page [⟨⟨2021, 12, 26⟩, "Еда", 100⟩]
      "2021-12-31 00:00:00" "INVALID") = true ∧
    events_page [⟨⟨2021, 12, 26⟩, "Еда", 100⟩] "2021-12-31 00:00:00" "INVALID" =
      Except.ok (eventsData [⟨⟨2021, 12, 26⟩, "Еда", 100⟩]
        "2021-12-31 00:00:00" "INVALID") :=
  ⟨rfl, rfl⟩

/-- C4 amended: an unrecognized range label does not fail; it is treated
exactly like the week label (window start 2021-12-25) and the call returns
a normal payload. -/
theorem C4_invalid_range_as_week (transactions : List Row) (d r : String)
    (h1 : r ≠ "ALL") (h2 : r ≠ "Y") (h3 : r ≠ "M") :
    events_page transactions d r = events_page transactions d "W" := by
  have hw : eventsWindowStart r = eventsWindowStart "W" := by
    simp [eventsWindowStart, h1, h2, h3]
  simp only [events_page, eventsData, eventsExpRows, eventsIncRows, eventsMainSeven,
    eventsOther, eventsFiltered, hw]

/-- Witness for C4 amended at a concrete unrecognized label. -/
theorem C4_invalid_range_as_week_witness :
    events_page [⟨⟨2021, 12, 26⟩, "Еда", 100⟩] "2021-12-31 00:00:00" "INVALID" =
      events_page [⟨⟨2021, 12, 26⟩, "Еда", 100⟩] "2021-12-31 00:00:00" "W" :=
  C4_invalid_range_as_week _ _ _ (by decide) (by decide) (by decide)

/-- Counterexample to C1 as stated: for the month string 2025-03 (limit 50,
month in 1..12, so the stated preconditions hold) the claim predicts the
round-up savings of the transactions dated in March 2025, here 20, but the
code clamps the out-of-range year to 2021 and returns 0. -/
theorem C1_investment_counterexample :
    investment_bank "2025-03" [⟨"2025-03-10", 1030, 0, "Еда", "a"⟩] 50 = Except.ok 0 ∧
    pyround2 (specSavings 2025 3 50 [⟨"2025-03-10", 1030, 0, "Еда", "a"⟩]) = 20 ∧
    investment_bank "2025-03" [⟨"2025-03-10", 1030, 0, "Еда", "a"⟩] 50 ≠
      Except.ok (pyround2 (specSavings 2025 3 50 [⟨"2025-03-10", 1030, 0, "Еда", "a"⟩])) := by
  have hp : parseDateISO "2025-03-10" = some (2025, 3, 10) := by decide
  have e1 : investment_bank "2025-03" [⟨"2025-03-10", 1030, 0, "Еда", "a"⟩] 50 =
      Except.ok 0 := by
    rw [investment_bank.eq_def]
    have hE : (splitDash ("2025-03").data).map pyIntParse = [some 2025, some 3] := by decide
    rw [hE]
    dsimp only
    rw [if_pos (by norm_num), if_pos (by norm_num)]
    have hcl : clampYear 2025 = 2021 := by decide
    rw [hcl]
    simp only [savingsSum, hp]
    norm_num [pyround2, pyround]
  have e2 : pyround2 (specSavings 2025 3 50 [⟨"2025-03-10", 1030, 0, "Еда", "a"⟩]) = 20 := by
    simp only [specSavings, List.filter_cons, List.filter_nil, txnInMonth, hp,
      Bool.and_eq_true, beq_iff_eq, decide_eq_true_eq]
    norm_num [roundupSaving, pymod, pyround2, pyround]
  refine ⟨e1, e2, ?_⟩
  rw [e1, e2]
  intro hcontra
  simp at hcontra

/-- C1 amended: for a month string parsing as year-month with the month in
1..12 and a positive limit, investment_bank returns, rounded to two
decimals, the sum over transactions dated in that month after the year is
clamped to 2018..2021 and with positive amount of the round-up saving
(limit minus the positive remainder of the amount modulo the limit, zero
when the remainder is zero); income transactions are excluded. -/
theorem C1_investment_savings (monthStr : String) (year monthNum : ℕ)
    (transactions : List Txn) (limit : ℤ)
    (hparse : (splitDash monthStr.data).map pyIntParse = [some year, some monthNum])
    (h1 : 1 ≤ monthNum) (h2 : monthNum ≤ 12) (h3 : 0 < limit) :
    investment_bank monthStr transactions limit =
      Except.ok (pyround2 (specSavings (clampYear year) monthNum (limit : ℚ) transactions)) := by
  rw [investment_bank.eq_def, hparse]
  dsimp only
  rw [if_pos ⟨h1, h2⟩, if_pos h3, savingsSum_eq_spec]

/-- Witness for C1 amended on the two spec examples: amount 1000 with limit
50 contributes 0, amount 1030 contributes 20, total 20. -/
theorem C1_investment_savings_witness :
    investment_bank "2021-03"
      [⟨"2021-03-05", 1000, 0, "Еда", "a"⟩, ⟨"2021-03-07", 1030, 0, "Еда", "b"⟩] 50 =
      Except.ok 20 := by
  rw [C1_investment_savings "2021-03" 2021 3
    [⟨"2021-03-05", 1000, 0, "Еда", "a"⟩, ⟨"2021-03-07", 1030, 0, "Еда", "b"⟩] 50
    (by decide) (by decide) (by decide) (by decide)]
  have hcl : clampYear 2021 = 2021 := by decide
  have hp1 : parseDateISO "2021-03-05" = some (2021, 3, 5) := by decide
  have hp2 : parseDateISO "2021-03-07" = some (2021, 3, 7) := by decide
  rw [hcl]
  simp only [specSavings, List.filter_cons, List.filter_nil, txnInMonth, hp1, hp2,
    Bool.and_eq_true, beq_iff_eq, decide_eq_true_eq]
  norm_num [roundupSaving, pymod, pyround2, pyround]

/-- C5: the cashback mapping contains only strictly positive summed
cashback values; a year outside 2018..2021 is clamped to 2021 (the call
then agrees with the clamped call, a warning not an error) and a month
outside 1..12 is clamped to 12 silently; and the value stored under any
category is exactly the summed cashback of the transactions dated in the
clamped year and month with that category and positive cashback, absent
when there is no such transaction. -/
theorem C5_cashback_categories (transactions : List Txn) (year month : ℤ) :
    (∀ p ∈ profitable_cashback_categories transactions year month, 0 < p.2) ∧
    (¬ (2018 ≤ year ∧ year ≤ 2021) →
      profitable_cashback_categories transactions year month =
        profitable_cashback_categories transactions 2021 month) ∧
    (¬ (1 ≤ month ∧ month ≤ 12) →
      profitable_cashback_categories transactions year month =
        profitable_cashback_categories transactions year 12) ∧
    (∀ c, lookupA (profitable_cashback_categories transactions year month) c =
      (if specCashbackTxns (clampYearZ year) (clampMonthZ month) c transactions = []
       then none
       else some (specCashbackSum (clampYearZ year) (clampMonthZ month) c transactions))) := by
  refine ⟨?_, ?_, ?_, ?_⟩
  · intro p hp
    exact cashbackFold_pos _ _ transactions [] (by simp) p hp
  · intro hy
    rw [profitable_cashback_categories, profitable_cashback_categories]
    have hcl : clampYearZ year = clampYearZ 2021 := by
      rw [clampYearZ, if_neg hy, clampYearZ, if_pos (by norm_num)]
      rfl
    rw [hcl]
  · intro hm
    rw [profitable_cashback_categories, profitable_cashback_categories]
    have hcl : clampMonthZ month = clampMonthZ 12 := by
      rw [clampMonthZ, if_neg hm, clampMonthZ, if_pos (by norm_num)]
      rfl
    rw [hcl]
  · intro c
    rw [profitable_cashback_categories, lookupA_cashbackFold]
    simp [lookupA]

/-- Witness for C5: a year out of range agrees with the clamped year, and
the category with cashbacks 50.25 and 0 appears once with value 50.25. -/
theorem C5_cashback_categories_witness :
    profitable_cashback_categories
      [⟨"2021-01-05", 100, 50.25, "Еда", "a"⟩, ⟨"2021-01-06", 100, 0, "Еда", "b"⟩]
      2025 1 =
    profitable_cashback_categories
      [⟨"2021-01-05", 100, 50.25, "Еда", "a"⟩, ⟨"2021-01-06", 100, 0, "Еда", "b"⟩]
      2021 1 ∧
    lookupA (profitable_cashback_categories
      [⟨"2021-01-05", 100, 50.25, "Еда", "a"⟩, ⟨"2021-01-06", 100, 0, "Еда", "b"⟩]
      2021 1) "Еда" = some 50.25 := by
  constructor
  · exact (C5_cashback_categories _ 2025 1).2.1 (by norm_num)
  · rw [(C5_cashback_categories _ 2021 1).2.2.2 "Еда"]
    have hy : clampYearZ 2021 = 2021 := by decide
    have hm : clampMonthZ 1 = 1 := by decide
    have hp1 : parseDateISO "2021-01-05" = some (2021, 1, 5) := by decide
    have hp2 : parseDateISO "2021-01-06" = some (2021, 1, 6) := by decide
    rw [hy, hm]
    simp only [specCashbackTxns, specCashbackSum, List.filter_cons, List.filter_nil,
      txnInMonth, hp1, hp2, Bool.and_eq_true, beq_iff_eq, decide_eq_true_eq]
    norm_num

/-- C6: in the events payload, expenses.total_amount is the integer
rounding of the sum of all positive amounts in the window and
income.total_amount the integer rounding of the absolute sum of the
negative amounts; the expense list holds at most the 7 largest categories
plus the synthetic remainder bucket, which appears exactly when the
remainder is positive; and every displayed entry, expenses and income, is a
per-category sum rounded to the nearest integer. -/
theorem C6_events_totals (transactions : List Row) (date_str date_range : String) :
    (eventsData transactions date_str date_range).expenses.total_amount =
      pyround (((eventsExpRows transactions date_str date_range).map Row.amount).sum) ∧
    (eventsData transactions date_str date_range).income.total_amount =
      pyround |((eventsIncRows transactions date_str date_range).map Row.amount).sum| ∧
    (eventsData transactions date_str date_range).expenses.main.length =
      min 7 (groupSum (eventsExpRows transactions date_str date_range)).length +
        (if 0 < eventsOther transactions date_str date_range then 1 else 0) ∧
    (∀ b ∈ (eventsData transactions date_str date_range).expenses.main,
      (b.category = "Остальное" ∧
        b.amount = pyround (eventsOther transactions date_str date_range)) ∨
      ∃ p ∈ groupSum (eventsExpRows transactions date_str date_range),
        b.category = p.1 ∧ b.amount = pyround p.2) ∧
    (∀ b ∈ (eventsData transactions date_str date_range).income.main,
      ∃ p ∈ groupSum (eventsIncRows transactions date_str date_range),
        b.category = p.1 ∧ b.amount = pyround |p.2|) := by
  have hneg : ∀ p ∈ groupSum (eventsIncRows transactions date_str date_range), p.2 ≤ 0 := by
    intro p hp
    refine mem_groupSumAux_pred (fun v => v ≤ 0) (fun a b ha hb => add_nonpos ha hb)
      (eventsIncRows transactions date_str date_range) [] (by simp) ?_ p hp
    intro r hr
    exact le_of_lt (of_decide_eq_true (List.mem_filter.mp hr).2)
  refine ⟨?_, ?_, ?_, ?_, ?_⟩
  · simp only [eventsData]
    rw [sumVals_groupSum]
  · simp only [eventsData]
    rw [sum_abs_of_nonpos _ hneg, sumVals_groupSum]
  · simp only [eventsData, List.length_append, List.length_map, eventsMainSeven,
      List.length_take, length_sortDesc]
    by_cases h : 0 < eventsOther transactions date_str date_range
    · rw [if_pos h, if_pos h]
      simp
    · rw [if_neg h, if_neg h]
      simp
  · intro b hb
    simp only [eventsData] at hb
    rcases List.mem_append.mp hb with hb | hb
    · obtain ⟨p, hp, rfl⟩ := List.mem_map.mp hb
      right
      rw [eventsMainSeven] at hp
      exact ⟨p, (mem_sortDesc p _).mp (List.mem_of_mem_take hp), rfl, rfl⟩
    · by_cases h : 0 < eventsOther transactions date_str date_range
      · rw [if_pos h] at hb
        simp only [List.mem_singleton] at hb
        left
        rw [hb]
        exact ⟨rfl, rfl⟩
      · rw [if_neg h] at hb
        simp at hb
  · intro b hb
    simp only [eventsData] at hb
    obtain ⟨p, hp, rfl⟩ := List.mem_map.mp hb
    exact ⟨p, hp, rfl, rfl⟩

/-- Witness for C6 on the four-row fixture of the spec: three positive
amounts summing to 6000 and one negative amount of magnitude 500, with the
whole-history range. -/
theorem C6_events_totals_witness :
    (eventsData [⟨⟨2021, 1, 1⟩, "Еда", 1000⟩, ⟨⟨2021, 1, 2⟩, "Транспорт", 2000⟩,
        ⟨⟨2021, 1, 3⟩, "Развлечения", 3000⟩, ⟨⟨2021, 1, 4⟩, "Зарплата", -500⟩]
      "2021-01-01 12:00:00" "ALL").expenses.total_amount = 6000 ∧
    (eventsData [⟨⟨2021, 1, 1⟩, "Еда", 1000⟩, ⟨⟨2021, 1, 2⟩, "Транспорт", 2000⟩,
        ⟨⟨2021, 1, 3⟩, "Развлечения", 3000⟩, ⟨⟨2021, 1, 4⟩, "Зарплата", -500⟩]
      "2021-01-01 12:00:00" "ALL").income.total_amount = 500 := by
  have h := C6_events_totals [⟨⟨2021, 1, 1⟩, "Еда", 1000⟩, ⟨⟨2021, 1, 2⟩, "Транспорт", 2000⟩,
    ⟨⟨2021, 1, 3⟩, "Развлечения", 3000⟩, ⟨⟨2021, 1, 4⟩, "Зарплата", -500⟩]
    "2021-01-01 12:00:00" "ALL"
  have hexp : eventsExpRows [⟨⟨2021, 1, 1⟩, "Еда", 1000⟩, ⟨⟨2021, 1, 2⟩, "Транспорт", 2000⟩,
      ⟨⟨2021, 1, 3⟩, "Развлечения", 3000⟩, ⟨⟨2021, 1, 4⟩, "Зарплата", -500⟩]
      "2021-01-01 12:00:00" "ALL" =
      [⟨⟨2021, 1, 1⟩, "Еда", 1000⟩, ⟨⟨2021, 1, 2⟩, "Транспорт", 2000⟩,
       ⟨⟨2021, 1, 3⟩, "Развлечения", 3000⟩] := by decide
  have hinc : eventsIncRows [⟨⟨2021, 1, 1⟩, "Еда", 1000⟩, ⟨⟨2021, 1, 2⟩, "Транспорт", 2000⟩,
      ⟨⟨2021, 1, 3⟩, "Развлечения", 3000⟩, ⟨⟨2021, 1, 4⟩, "Зарплата", -500⟩]
      "2021-01-01 12:00:00" "ALL" = [⟨⟨2021, 1, 4⟩, "Зарплата", -500⟩] := by decide
  constructor
  · rw [h.1, hexp]
    norm_num [pyround]
  · rw [h.2.1, hinc]
    norm_num [pyround]
